import Mathlib

/-!
Verification development for the `template2slide` asset-resolution and
content-normalization pipeline (`scripts/generate_from_json.js`).

Shallow embedding conventions:
- a file on disk is a `List Nat` of bytes; the filesystem is a map from
  path strings to `Option (List Nat)` (`none` = no file at that path);
- the network and the headless-browser collaborators are an explicit
  oracle record `Env`;
- JavaScript exceptions are `Except` values; the `try`/`catch` structure
  of the source is mirrored by `match`es on those values;
- JavaScript strings are Lean `String`s / `List Char`.
-/

namespace T2S

/-! ## Generic string / list helpers (models of JS string primitives) -/

/-- `listStartsWith hay pat`: `hay` begins with `pat`. -/
def listStartsWith : List Char → List Char → Bool
  | _, [] => true
  | [], _ :: _ => false
  | a :: as, b :: bs => a == b && listStartsWith as bs

/-- `listHas hay pat`: `pat` occurs as a contiguous run inside `hay`
(model of JS `String.prototype.includes`). -/
def listHas (hay pat : List Char) : Bool :=
  match hay with
  | [] => listStartsWith [] pat
  | _ :: t => listStartsWith hay pat || listHas t pat

/-- Model of JS `s.includes(pat)`. -/
def strHas (s pat : String) : Bool := listHas s.toList pat.toList

/-- Model of JS `s.startsWith(pat)`. -/
def jsStartsWith (s pat : String) : Bool := listStartsWith s.toList pat.toList

/-- Model of JS `s.toLowerCase()` (ASCII case folding, which is all the
pipeline's vocabulary and markers need). -/
def jsToLower (s : String) : String := String.mk (s.toList.map Char.toLower)

/-- Model of JS `s.join(' ')` on an array of strings. -/
def joinSpace : List String → String
  | [] => ""
  | [s] => s
  | s :: rest => s ++ " " ++ joinSpace rest

/-- Character class `[a-zA-Z0-9_-]` used by the capture groups of the
source's regexes. -/
def isTokenChar (c : Char) : Bool := c.isAlphanum || c == '_' || c == '-'

/-- First position in `hay` where `pat` is followed by a nonempty run of
`[a-zA-Z0-9_-]` characters; returns that run.  Models a JS
`hay.match(/pat([a-zA-Z0-9_-]+)/)` capture. -/
def findCapture (pat : List Char) (hay : List Char) : Option String :=
  match hay with
  | [] => none
  | _ :: t =>
    if listStartsWith hay pat then
      let tok := (hay.drop pat.length).takeWhile isTokenChar
      if tok.isEmpty then findCapture pat t else some (String.mk tok)
    else findCapture pat t

/-- Split `hay` at the first occurrence of `pat`, returning the parts
before and after it. -/
def splitOnce (hay pat : List Char) : Option (List Char × List Char) :=
  match hay with
  | [] => if listStartsWith [] pat then some ([], []) else none
  | c :: t =>
    if listStartsWith hay pat then some ([], hay.drop pat.length)
    else (splitOnce t pat).map (fun pr => (c :: pr.1, pr.2))

/-- Split a character list on a separator character (model of JS
`String.prototype.split`). -/
def splitOnChar (sep : Char) : List Char → List (List Char)
  | [] => [[]]
  | c :: t =>
    if c == sep then [] :: splitOnChar sep t
    else
      match splitOnChar sep t with
      | [] => [[c]]
      | h :: r => (c :: h) :: r

/-- The whitespace class of JS regex `\s` (restricted to the ASCII white
space characters; the Unicode spaces cannot occur in the pipeline's data). -/
def jsWs (c : Char) : Bool :=
  c == ' ' || c == '\t' || c == '\n' || c == '\r' || c == '\x0b' || c == '\x0c'

/-- Model of JS `s.trim()`: strip leading and trailing whitespace. -/
def jsTrim (s : String) : String :=
  String.mk (((s.toList.dropWhile jsWs).reverse.dropWhile jsWs).reverse)

/-! ## FileTypeValidator (`validateFileType`, generate_from_json.js:69-120) -/

/-- Byte access like JS `buffer[i]`: an out-of-range read yields 256, a
value no real byte equals, matching `undefined === 0xNN` being false. -/
def byteAt (l : List Nat) (i : Nat) : Nat := l.getD i 256

/-- Byte-level model of `buffer.toString('utf-8').toLowerCase()` restricted
to ASCII: uppercase ASCII bytes are lowered, other ASCII bytes map to their
character, non-ASCII bytes map to U+FFFD.  The source only searches this
string for pure-ASCII substrings, for which this byte-level view agrees
with UTF-8 decoding. -/
def byteLowerChar (b : Nat) : Char :=
  if 65 ≤ b ∧ b ≤ 90 then Char.ofNat (b + 32)
  else if b ≤ 127 then Char.ofNat b
  else Char.ofNat 0xFFFD

/-- Lowercased ASCII view of a byte list. -/
def bytesLower (bs : List Nat) : List Char := bs.map byteLowerChar

/-- Case-preserving ASCII view of a byte list (model of
`buffer.toString('utf-8')` for the ASCII ranges the source matches on). -/
def bytesAscii (bs : List Nat) : List Char :=
  bs.map (fun b => if b ≤ 127 then Char.ofNat b else Char.ofNat 0xFFFD)

/-- The source's HTML sniff for the video case: the first 100 bytes,
lowercased, contain `<!doctype` or `<html` (generate_from_json.js:86-89). -/
def htmlProbe (bs : List Nat) : Bool :=
  let t := bytesLower (bs.take 100)
  listHas t ("<!doctype".toList) || listHas t ("<html".toList)

/-- `validateFileType` (generate_from_json.js:69-120).  The file is modeled
as its byte list (`stats.size` = list length; `fs.promises.readFile` yields
the whole file).  The `catch`-on-stat path (missing file) is outside this
model: a file that is being validated exists. -/
def validateFileType (file : List Nat) (expectedType : String) : Bool :=
  if file.length < 4 then false
  else if expectedType = "video" then
    if byteAt file 0 = 0x89 ∧ byteAt file 1 = 0x50 ∧ byteAt file 2 = 0x4E ∧ byteAt file 3 = 0x47 then
      false
    else if htmlProbe file then false
    else if 8 ≤ file.length ∧ byteAt file 4 = 0x66 ∧ byteAt file 5 = 0x74 ∧
        byteAt file 6 = 0x79 ∧ byteAt file 7 = 0x70 then
      true
    else false
  else if expectedType = "image" then
    let isPng := byteAt file 0 = 0x89 ∧ byteAt file 1 = 0x50 ∧ byteAt file 2 = 0x4E ∧ byteAt file 3 = 0x47
    let isJpeg := byteAt file 0 = 0xFF ∧ byteAt file 1 = 0xD8 ∧ byteAt file 2 = 0xFF
    let isGif := byteAt file 0 = 0x47 ∧ byteAt file 1 = 0x49 ∧ byteAt file 2 = 0x46 ∧ byteAt file 3 = 0x38
    if isPng ∨ isJpeg ∨ isGif then true else false
  else true

/-! ## ContentAggregator (`aggregateSlides`, generate_from_json.js:776-984) -/

/-- A content block of a slide (`{level, text}`). -/
structure ContentBlock where
  level : Nat
  text : String
deriving DecidableEq, Repr

/-- A slide descriptor, restricted to the fields `aggregateSlides` reads or
writes.  A missing JS `content` field is the empty list, a missing `title`
is `""` (both behave identically in the source's checks), and the derived
`_group` tag is `group` (`none` when absent on the input). -/
structure Slide where
  type : String
  title : String
  content : List ContentBlock
  group : Option String
deriving DecidableEq, Repr

/-- Per-slide density bound `MAX_ITEMS_PER_SLIDE` (generate_from_json.js:781). -/
def MAX_ITEMS_PER_SLIDE : Nat := 10

/-- The run predicate: a System-Requirements (target-category) slide
(generate_from_json.js:787-788 and 795-797). -/
def isSysReq (s : Slide) : Bool :=
  s.type == "content_bullets" &&
    (jsStartsWith s.title "System Requirements:" || s.title == "System Requirements")

/-- The joined, lowercased content text the trivial-slide filter inspects:
`content.map(c => c.text || '').join(' ').toLowerCase()`
(generate_from_json.js:808). -/
def joinedText (content : List ContentBlock) : String :=
  jsToLower (joinSpace (content.map (·.text)))

/-- Model of the regex test `/^power\s*:\s*standard/i` applied to the
(already lowercased) joined text. -/
def powerStandard (cs : List Char) : Bool :=
  if listStartsWith cs ("power".toList) then
    match (cs.drop 5).dropWhile jsWs with
    | ':' :: r => listStartsWith (r.dropWhile jsWs) ("standard".toList)
    | _ => false
  else false

/-- The trivial-phrasing part of the filter: the joined content text
contains `none required` or `standard source`, or starts with
`power : standard` (generate_from_json.js:811-813). -/
def trivialPhrasing (content : List ContentBlock) : Bool :=
  let text := joinedText content
  strHas text "none required" || strHas text "standard source" ||
    powerStandard text.toList

/-- The filter keeping non-trivial slides (generate_from_json.js:806-814):
no trivial phrasing AND more than 2 content blocks. -/
def keepSlide (s : Slide) : Bool :=
  let text := joinedText s.content
  !(strHas text "none required") && !(strHas text "standard source") &&
    !(powerStandard text.toList) && decide (2 < s.content.length)

/-- The section-header vocabulary (generate_from_json.js:832). -/
def sectionVocabulary : List String :=
  ["Network", "Camera", "AI Training", "AI Inference", "Dashboard"]

/-- A content block counts as a section header when its level is 0, its
trimmed text has no colon, and that text is in the vocabulary
(generate_from_json.js:829-833). -/
def isSectionHeader (b : ContentBlock) : Bool :=
  let text := jsTrim b.text
  b.level == 0 && !(strHas text ":") && sectionVocabulary.contains text

/-- `sectionBoundaries`, built with an explicit running index to mirror the
`forEach((item, idx) => ...)` scan (generate_from_json.js:827-835). -/
def sectionBoundariesFrom (idx : Nat) : List ContentBlock → List (Nat × String)
  | [] => []
  | b :: rest =>
    if isSectionHeader b then (idx, jsTrim b.text) :: sectionBoundariesFrom (idx + 1) rest
    else sectionBoundariesFrom (idx + 1) rest

/-- The section boundaries of a slide's content. -/
def sectionBoundaries (content : List ContentBlock) : List (Nat × String) :=
  sectionBoundariesFrom 0 content

/-- `sectionName.toLowerCase().replace(/\s+/g, '_')`
(generate_from_json.js:852). -/
def squashWsAux (prevWs : Bool) : List Char → List Char
  | [] => []
  | c :: t =>
    if jsWs c then
      if prevWs then squashWsAux true t else '_' :: squashWsAux true t
    else c :: squashWsAux false t

/-- Lowercase a section name and replace whitespace runs by `_`. -/
def groupName (name : String) : String :=
  String.mk (squashWsAux false (jsToLower name).toList)

/-- The fixed category title. -/
def baseTitle : String := "System Requirements"

/-- One derived slide per section segment, titled
`System Requirements: <section>` (generate_from_json.js:838-854).  The
segment of boundary `k` runs from its index to the next boundary's index
(or the end of the content). -/
def splitBySections (s : Slide) (content : List ContentBlock)
    (bnds : List (Nat × String)) : List Slide :=
  (bnds.zip ((bnds.map Prod.fst).tail ++ [content.length])).map fun pr =>
    { s with
      title := baseTitle ++ ": " ++ pr.1.2
      content := (content.drop pr.1.1).take (pr.2 - pr.1.1)
      group := some (groupName pr.1.2) }

/-- Per-slide processing of a surviving slide of a run
(generate_from_json.js:823-881): split by sections, split in half, or pass
through with a normalized title. -/
def processSlide (s : Slide) : List Slide :=
  let content := s.content
  let bnds := sectionBoundaries content
  if 1 < bnds.length ∧ MAX_ITEMS_PER_SLIDE < content.length then
    splitBySections s content bnds
  else if MAX_ITEMS_PER_SLIDE < content.length ∧ bnds.length = 1 then
    let sectionName := (bnds.headD (0, "")).2
    let mid := (content.length + 1) / 2
    [ { s with
        title := if sectionName = "" then baseTitle ++ " (1/2)"
          else baseTitle ++ ": " ++ sectionName ++ " (1/2)"
        content := content.take mid
        group := some "split_1" },
      { s with
        title := if sectionName = "" then baseTitle ++ " (2/2)"
          else baseTitle ++ ": " ++ sectionName ++ " (2/2)"
        content := content.drop mid
        group := some "split_2" } ]
  else
    let sectionName := if bnds.length = 1 then (bnds.headD (0, "")).2 else ""
    [ { s with
        title := if sectionName = "" then baseTitle else baseTitle ++ ": " ++ sectionName
        group := some (if sectionName = "" then "general" else groupName sectionName) } ]

/-- Processing of one maximal run of adjacent System-Requirements slides:
filter out trivial slides; when all are trivial the whole run is dropped,
otherwise each surviving slide is processed (generate_from_json.js:806-881). -/
def processRun (run : List Slide) : List Slide :=
  let nonTrivial := run.filter keepSlide
  if nonTrivial.isEmpty then [] else nonTrivial.flatMap processSlide

/-- `aggregateSlides` (generate_from_json.js:776-984).  The JS `while` loop
collects each maximal run of adjacent System-Requirements slides
(`takeWhile`/`dropWhile`) and processes it; all other slides pass through
unchanged.  The `if (false && ...)` block at generate_from_json.js:888 is
dead code and is not modeled. -/
def aggregateSlides : List Slide → List Slide
  | [] => []
  | s :: rest =>
    if isSysReq s then
      processRun (s :: rest.takeWhile isSysReq) ++
        aggregateSlides (rest.dropWhile isSysReq)
    else
      s :: aggregateSlides rest
termination_by l => l.length
decreasing_by
  · simp only [List.length_cons]
    exact Nat.lt_succ_of_le (List.dropWhile_sublist _).length_le
  · simp

/-- Total number of content blocks across a list of slides. -/
def sumBlocks (slides : List Slide) : Nat :=
  (slides.map (fun s => s.content.length)).sum

/-- The number of content blocks the multi-section split path discards: the
blocks before the first section header, in slides with more than one
section and more than `MAX_ITEMS_PER_SLIDE` blocks; 0 otherwise. -/
def droppedLeading (s : Slide) : Nat :=
  let bnds := sectionBoundaries s.content
  if 1 < bnds.length ∧ MAX_ITEMS_PER_SLIDE < s.content.length then
    (bnds.headD (0, "")).1
  else 0

/-! ## RemoteAssetFetcher (generate_from_json.js:33-518)

The network and the headless browser are an oracle `Env`.  A filesystem is
a map from paths to optional byte lists; every strategy of one fetch writes
the same destination path. -/

/-- Filesystem state. -/
def FS : Type := String → Option (List Nat)

/-- Write (`some bytes`) or delete (`none`) the file at `p`. -/
def setF (fs : FS) (p : String) (v : Option (List Nat)) : FS :=
  fun q => if q = p then v else fs q

/-- The empty filesystem. -/
def emptyFS : FS := fun _ => none

/-- One network response, as the source consumes it: a request error
(timeout / connection failure), or a response with status code, optional
`Location` header, `content-type` header, body, and whether streaming the
body to disk succeeds. -/
inductive NetResp where
  | err : NetResp
  | resp (status : Nat) (location : Option String) (ctype : String)
      (body : List Nat) (writeOk : Bool) : NetResp

/-- The oracle for all external collaborators.  `get` answers every HTTP(S)
request (the model is stateless: one URL, one response).  The `pw*` fields
are the outcomes of the headless-browser fallbacks: the captured download
of the Google-Drive page (immediately or after clicking a download
control), the bytes served at a `googleusercontent` video URL, the
response body of a plain-URL page load.  `mmdcOk`/`mmdcOut` describe the
external mermaid renderer, `sharp` the raster-image generator used for the
placeholder (`none` = it throws). -/
structure Env where
  get : String → NetResp
  pwDriveImmediate : Option (List Nat)
  pwGuc : Option (List Nat)
  pwClick : Option (List Nat)
  pwPlain : Option (List Nat)
  mmdcOk : Bool
  mmdcOut : List Nat
  sharp : Option (List Nat)

/-- `location.startsWith('http') ? location : new URL(location, url).href`
(generate_from_json.js:142-144).  Relative resolution is a simplified model
of the WHATWG algorithm: origin-relative for a leading `/`, else resolved
against the base directory. -/
def originOf (base : String) : String :=
  match splitOnce base.toList ("://".toList) with
  | none => base
  | some pr => String.mk (pr.1 ++ "://".toList ++ pr.2.takeWhile (fun c => !(c == '/')))

/-- Base URL up to and including its last `/` (simplified). -/
def dirOf (base : String) : String :=
  String.mk (base.toList.reverse.dropWhile (fun c => !(c == '/'))).reverse

/-- Resolve a redirect `Location` header against the requested URL. -/
def resolveLocation (location url : String) : String :=
  if jsStartsWith location "http" then location
  else if jsStartsWith location "/" then originOf url ++ location
  else dirOf url ++ location

/-- Result of `downloadFileDirect`: outcome (`.error msg` models a rejected
promise), the filesystem afterwards, and the list of URLs requested (most
recent first request first). -/
def DirectRes : Type := Except String Unit × FS × List String

/-- `downloadFileDirect` (generate_from_json.js:124-176): bounded
redirect-following download.  A redirect (status 300-399 with a `Location`
header, when following is enabled) recurses with the budget decremented;
a zero budget rejects with `Too many redirects` before any request; a
non-200 terminal response rejects; a streamed body lands at `dest` (a
stream error deletes the partial file and rejects, js:164-167). -/
def downloadFileDirect (env : Env) (dest : String) (follow : Bool) :
    Nat → String → FS → DirectRes
  | 0, _, fs => (.error "Too many redirects", fs, [])
  | b + 1, url, fs =>
    match env.get url with
    | .err => (.error "request error", fs, [url])
    | .resp st loc _ body writeOk =>
      match loc with
      | some l =>
        if follow ∧ 300 ≤ st ∧ st < 400 then
          let r := downloadFileDirect env dest follow b (resolveLocation l url) fs
          (r.1, r.2.1, url :: r.2.2)
        else if st ≠ 200 then (.error "HTTP status", fs, [url])
        else if writeOk then (.ok (), setF fs dest (some body), [url])
        else (.error "write error", setF fs dest none, [url])
      | none =>
        if st ≠ 200 then (.error "HTTP status", fs, [url])
        else if writeOk then (.ok (), setF fs dest (some body), [url])
        else (.error "write error", setF fs dest none, [url])

/-- `fetchResponse` (generate_from_json.js:179-220): fetch a URL into
memory, following redirects.  The source follows redirects without any
bound, so the model carries explicit fuel; running out of fuel models the
source looping forever on a redirect cycle. -/
def fetchResponse (env : Env) : Nat → String → Except String (String × List Nat)
  | 0, _ => .error "redirect cycle"
  | fuel + 1, url =>
    match env.get url with
    | .err => .error "request error"
    | .resp st loc ctype body _ =>
      match loc with
      | some l =>
        if 300 ≤ st ∧ st < 400 then fetchResponse env fuel (resolveLocation l url)
        else if st ≠ 200 then .error "HTTP status"
        else .ok (ctype, body)
      | none =>
        if st ≠ 200 then .error "HTTP status"
        else .ok (ctype, body)

/-- The expected-kind string, `isVideo ? 'video' : 'image'`. -/
def kindStr (isVideo : Bool) : String := if isVideo then "video" else "image"

/-- The download-validate-delete block the Google-Drive strategies repeat
(generate_from_json.js:228-241, 262-273, 281-293): direct download with
redirects; a file over 1000 bytes is validated by magic bytes and accepted,
or deleted when invalid; a smaller file is left in place and the strategy
fails. -/
def tryDirectValidated (env : Env) (url dest : String) (isVideo : Bool)
    (fs : FS) : Option String × FS :=
  let r := downloadFileDirect env dest true 5 url fs
  match r.1 with
  | .error _ => (none, r.2.1)
  | .ok _ =>
    match r.2.1 dest with
    | none => (none, r.2.1)
    | some bytes =>
      if 1000 < bytes.length then
        if validateFileType bytes (kindStr isVideo) then (some dest, r.2.1)
        else (none, setF r.2.1 dest none)
      else (none, r.2.1)

/-- The canonical export-download URL for a Drive file id
(generate_from_json.js:58-60, 224). -/
def driveDownloadUrl (fileId : String) : String :=
  "https://drive.google.com/uc?export=download&id=" ++ fileId

/-- `downloadGoogleDriveFile` (generate_from_json.js:223-318): direct
export download, then HTML-interstitial token parsing with a
`confirm=<token>` retry, then a generic `confirm=t` retry, then saving a
non-HTML in-memory response.  Every failure falls through; the function
never throws (its body is wrapped in a catch-all). -/
def downloadGoogleDriveFile (env : Env) (fileId dest : String)
    (isVideo : Bool) (fuel : Nat) (fs : FS) : Option String × FS :=
  let downloadUrl := driveDownloadUrl fileId
  match tryDirectValidated env downloadUrl dest isVideo fs with
  | (some p, fs1) => (some p, fs1)
  | (none, fs1) =>
    match fetchResponse env fuel downloadUrl with
    | .error _ => (none, fs1)
    | .ok (ctype, body) =>
      if strHas (jsToLower ctype) "text/html" ∨
          listHas (bytesLower (body.take 100)) ("<!doctype".toList) then
        let afterToken :=
          match findCapture ("confirm=".toList) (bytesAscii body) with
          | some tok =>
            tryDirectValidated env (downloadUrl ++ "&confirm=" ++ tok) dest isVideo fs1
          | none => (none, fs1)
        match afterToken with
        | (some p, fs2) => (some p, fs2)
        | (none, fs2) =>
          tryDirectValidated env (downloadUrl ++ "&confirm=t") dest isVideo fs2
      else
        if 1000 < body.length then
          let fs2 := setF fs1 dest (some body)
          if validateFileType body (kindStr isVideo) then (some dest, fs2)
          else (none, setF fs2 dest none)
        else (none, fs1)

/-- `extractGoogleDriveId` pattern 2 (generate_from_json.js:44-49):
`new URL(url)`, `pathname.includes('open')`, `searchParams.get('id')`.
URL parsing is a simplified model: a URL without `://` is invalid
(the JS constructor throws and the catch yields no id); the pathname runs
from the first `/` after the host to `?` or `#`; the query is split on `&`
and the first `id` parameter is returned (percent-decoding not modeled -
Drive ids contain no percent escapes). -/
def extractIdFromQuery (url : String) : Option String :=
  match splitOnce url.toList ("://".toList) with
  | none => none
  | some pr =>
    let afterHost := pr.2.dropWhile (fun c => !(c == '/' || c == '?' || c == '#'))
    let pathname := afterHost.takeWhile (fun c => !(c == '?' || c == '#'))
    if listHas pathname ("open".toList) then
      let query :=
        match afterHost.dropWhile (fun c => !(c == '?')) with
        | [] => []
        | _ :: t => t.takeWhile (fun c => !(c == '#'))
      match (splitOnChar '&' query).findSome? (fun p =>
          let k := p.takeWhile (fun c => !(c == '='))
          if k = ("id".toList) then some ((p.dropWhile (fun c => !(c == '='))).drop 1)
          else none) with
      | some v => if v.isEmpty then none else some (String.mk v)
      | none => none
    else none

/-- `extractGoogleDriveId` (generate_from_json.js:34-55): the
`/file/d/<id>` path segment, else the `id` query parameter of an `open`
URL. -/
def extractGoogleDriveId (url : String) : Option String :=
  match findCapture ("/file/d/".toList) url.toList with
  | some id => some id
  | none => extractIdFromQuery url

/-- Saving a browser-captured download (generate_from_json.js:458-472):
`saveAs` writes the file; a nonempty file is validated and accepted, or
deleted when invalid; an empty file is left and the attempt fails. -/
def pwSaveDownload (dest : String) (isVideo : Bool) (b : List Nat)
    (fs : FS) : Option String × FS :=
  let fs2 := setF fs dest (some b)
  if 0 < b.length then
    if validateFileType b (kindStr isVideo) then (some dest, fs2)
    else (none, setF fs2 dest none)
  else (none, fs2)

/-- The `googleusercontent` sub-path of the Drive Playwright fallback
(generate_from_json.js:384-407): for videos redirected to a content URL,
bytes over the size gate are written, validated, and accepted or
deleted. -/
def gucAttempt (env : Env) (dest : String) (isVideo : Bool)
    (fs : FS) : Option String × FS :=
  match (if isVideo then env.pwGuc else none) with
  | some b =>
    if 1000 < b.length then
      let fs2 := setF fs dest (some b)
      if validateFileType b (kindStr isVideo) then (some dest, fs2)
      else (none, setF fs2 dest none)
    else (none, fs)
  | none => (none, fs)

/-- The Playwright fallback for Google-Drive URLs
(generate_from_json.js:352-475): an immediately captured download; else,
for videos redirected to a `googleusercontent` URL, the served bytes
(validated, deleted when invalid, js:384-407); else a download captured
after activating the confirmation page's download control.  The browser
interactions themselves are the oracle's `pwDriveImmediate` / `pwGuc` /
`pwClick` outcomes. -/
def drivePlaywright (env : Env) (dest : String) (isVideo : Bool)
    (fs : FS) : Option String × FS :=
  match env.pwDriveImmediate with
  | some b => pwSaveDownload dest isVideo b fs
  | none =>
    match gucAttempt env dest isVideo fs with
    | (some p, fs2) => (some p, fs2)
    | (none, fs2) =>
      match env.pwClick with
      | some b => pwSaveDownload dest isVideo b fs2
      | none => (none, fs2)

/-- The image view-URL strategy (generate_from_json.js:338-350): direct
download of the inline `view` endpoint, accepted on its size alone -
without magic-byte validation; an undersized file is deleted. -/
def viewUrlAttempt (env : Env) (fileId dest : String) (fs : FS) :
    Option String × FS :=
  let viewUrl := "https://drive.google.com/uc?export=view&id=" ++ fileId
  let r := downloadFileDirect env dest true 5 viewUrl fs
  match r.1 with
  | .error _ => (none, r.2.1)
  | .ok _ =>
    match r.2.1 dest with
    | none => (none, r.2.1)
    | some bytes =>
      if 1000 < bytes.length then (some dest, r.2.1)
      else (none, setF r.2.1 dest none)

/-- The plain-URL branch (generate_from_json.js:477-505): direct download,
validated but with no deletion of an invalid file; on a thrown download
error, a Playwright page-load fallback whose nonempty body is written and
validated (also without deletion on rejection). -/
def plainUrlAttempt (env : Env) (url dest : String) (isVideo : Bool)
    (fs : FS) : Option String × FS :=
  let r := downloadFileDirect env dest true 5 url fs
  match r.1 with
  | .ok _ =>
    match r.2.1 dest with
    | none => (none, r.2.1)
    | some bytes =>
      if 0 < bytes.length then
        if validateFileType bytes (kindStr isVideo) then (some dest, r.2.1)
        else (none, r.2.1)
      else (none, r.2.1)
  | .error _ =>
    match env.pwPlain with
    | some body =>
      if 0 < body.length then
        let fs2 := setF r.2.1 dest (some body)
        if validateFileType body (kindStr isVideo) then (some dest, fs2)
        else (none, fs2)
      else (none, r.2.1)
    | none => (none, r.2.1)

/-- `downloadFile` (generate_from_json.js:322-513).  Google-Drive URLs run
the token-parsing strategy chain, then (for images) the inline `view`
endpoint, then the Playwright fallback.  Plain URLs run the direct-download
branch with its Playwright page-load fallback.  Ordinary failures are
caught and yield `none`. -/
def downloadFile (env : Env) (url dest : String) (isVideo : Bool)
    (fuel : Nat) (fs : FS) : Option String × FS :=
  if jsTrim url = "" then (none, fs)
  else
    match extractGoogleDriveId url with
    | some fileId =>
      match downloadGoogleDriveFile env fileId dest isVideo fuel fs with
      | (some p, fs1) => (some p, fs1)
      | (none, fs1) =>
        match (if isVideo then (none, fs1) else viewUrlAttempt env fileId dest fs1) with
        | (some p, fs2) => (some p, fs2)
        | (none, fs2) => drivePlaywright env dest isVideo fs2
    | none => plainUrlAttempt env url dest isVideo fs

/-- Acceptance specification for a fetch result: either the fetch failed
(`none`), or it returned the destination path and the file now at that
path satisfies `P`. -/
def AcceptOk (dest : String) (P : List Nat → Prop) (r : Option String × FS) : Prop :=
  r.1 = none ∨ (r.1 = some dest ∧ ∃ b, r.2 dest = some b ∧ P b)

/-! ## DiagramRenderer (generate_from_json.js:714-754, 1144-1154) -/

/-- Replace the first occurrence of `pat` in `s` by `repl` (JS
`String.prototype.replace` with a string pattern). -/
def replaceFirst (s pat repl : String) : String :=
  match splitOnce s.toList pat.toList with
  | some pr => String.mk (pr.1 ++ repl.toList ++ pr.2)
  | none => s

/-- Bytes of a string written to disk (code points; adequate for the model,
which never inspects the temp file's contents). -/
def strBytes (s : String) : List Nat := s.toList.map Char.toNat

/-- `renderMermaidDiagram` (generate_from_json.js:714-754): write the
diagram source to a temp `.mmd` file, invoke the external `mmdc` engine;
on engine failure fall back to a placeholder PNG rasterized by `sharp`
(whose own failure is caught and yields `null`).  The third component
records whether the external engine invocation was attempted. -/
def renderMermaidDiagram (env : Env) (code outputPath : String) (fs : FS) :
    Option String × FS × Bool :=
  let temp := replaceFirst outputPath ".png" ".mmd"
  let fs1 := setF fs temp (some (strBytes code))
  if env.mmdcOk then
    (some outputPath, setF (setF fs1 outputPath (some env.mmdcOut)) temp none, true)
  else
    match env.sharp with
    | some png => (some outputPath, setF fs1 outputPath (some png), true)
    | none => (none, fs1, true)

/-- The orchestrator's per-diagram step (generate_from_json.js:1144-1154):
render only when the source is nonempty after trimming; otherwise emit a
diagnostic and skip - no renderer call, no asset entry, no error.  Returns
the filesystem, whether the external engine was invoked, and the recorded
asset path (the source records the path whenever it attempts a render). -/
def diagramStep (env : Env) (diagramCode outputPath : String) (fs : FS) :
    FS × Bool × Option String :=
  if jsTrim diagramCode ≠ "" then
    let r := renderMermaidDiagram env diagramCode outputPath fs
    (r.2.1, r.2.2, some outputPath)
  else (fs, false, none)

/-! ## Concrete test fixtures -/

/-- A non-trivially-phrased System-Requirements slide with a single content
block (below the 3-block minimum). -/
def c2Slide : Slide :=
  ⟨"content_bullets", "System Requirements", [⟨0, "GPU required"⟩], none⟩

/-- A 12-block System-Requirements slide whose first block precedes the
first section header. -/
def c1Slide : Slide :=
  ⟨"content_bullets", "System Requirements",
    [⟨1, "Overview item"⟩,
     ⟨0, "Network"⟩, ⟨1, "Bandwidth 10Mbps"⟩, ⟨1, "Latency low"⟩,
     ⟨1, "Uptime high"⟩, ⟨1, "Router x1"⟩,
     ⟨0, "Camera"⟩, ⟨1, "Resolution 1080p"⟩, ⟨1, "FPS 25"⟩,
     ⟨1, "Rating IP67"⟩, ⟨1, "Lens 2.8mm"⟩, ⟨1, "Night vision"⟩], none⟩

/-- A 12-block System-Requirements slide that starts with its first section
header (used as the C1 witness run). -/
def c1WSlide : Slide :=
  ⟨"content_bullets", "System Requirements",
    [⟨0, "Network"⟩, ⟨1, "Bandwidth 10Mbps"⟩, ⟨1, "Latency low"⟩,
     ⟨1, "Uptime high"⟩, ⟨1, "Router x1"⟩, ⟨1, "Switch x1"⟩,
     ⟨0, "Camera"⟩, ⟨1, "Resolution 1080p"⟩, ⟨1, "FPS 25"⟩,
     ⟨1, "Rating IP67"⟩, ⟨1, "Lens 2.8mm"⟩, ⟨1, "Night vision"⟩], none⟩

/-- A 12-block slide with section headers `Network` and `Camera` (C7
witness). -/
def c7Slide : Slide :=
  ⟨"content_bullets", "System Requirements",
    [⟨0, "Network"⟩, ⟨1, "Bandwidth 10Mbps"⟩, ⟨1, "Latency low"⟩,
     ⟨1, "Uptime high"⟩, ⟨1, "Router x1"⟩, ⟨1, "Switch x1"⟩,
     ⟨0, "Camera"⟩, ⟨1, "Resolution 1080p"⟩, ⟨1, "FPS 25"⟩,
     ⟨1, "Rating IP67"⟩, ⟨1, "Lens 2.8mm"⟩, ⟨1, "Night vision"⟩], none⟩

/-- A 14-block slide with exactly one section header (C8 witness). -/
def c8Slide : Slide :=
  ⟨"content_bullets", "System Requirements",
    [⟨0, "Dashboard"⟩, ⟨1, "Users 20"⟩, ⟨1, "Browser any"⟩,
     ⟨1, "Reports daily"⟩, ⟨1, "Alerts email"⟩, ⟨1, "Export csv"⟩,
     ⟨1, "Language en"⟩, ⟨1, "Uptime 99"⟩, ⟨1, "Login sso"⟩,
     ⟨1, "Roles 3"⟩, ⟨1, "Audit log"⟩, ⟨1, "Mobile view"⟩,
     ⟨1, "Charts live"⟩, ⟨1, "Retention 30d"⟩], none⟩

/-- An environment whose every request serves a small HTML page as a
successful download (C3 counterexample). -/
def env3 : Env :=
  ⟨fun _ => .resp 200 none "" (strBytes "<html>") true,
    none, none, none, none, false, [], none⟩

/-- An environment whose every request serves a 1001-byte file of zeros -
large enough to pass the size gate but failing magic-byte validation (C3
witness). -/
def envW3 : Env :=
  ⟨fun _ => .resp 200 none "" (List.replicate 1001 0) true,
    none, none, none, none, false, [], none⟩

/-- An environment whose every request answers with a redirect back into a
loop (C9 witness). -/
def env9 : Env :=
  ⟨fun _ => .resp 302 (some "http://loop/a") "" [] true,
    none, none, none, none, false, [], none⟩

/-- An environment with the mermaid engine unavailable and a working
raster-image generator (C6 witness). -/
def env6 : Env :=
  ⟨fun _ => .err, none, none, none, none, false, [],
    some [0x89, 0x50, 0x4E, 0x47]⟩

/-! ## Theorems -/

/-- C5: `validateFileType(file, "video")` is false for every file whose
first four bytes are the PNG signature, false for every file whose prefix
is recognizable HTML markup, false for every file smaller than the minimal
4-byte threshold (any expected kind), and true for a file of at least 8
bytes, not PNG, not HTML, whose bytes 4-7 are the `ftyp` container
marker. -/
theorem claim_C5 :
    (∀ file : List Nat, 4 ≤ file.length →
      byteAt file 0 = 0x89 → byteAt file 1 = 0x50 →
      byteAt file 2 = 0x4E → byteAt file 3 = 0x47 →
      validateFileType file "video" = false)
  ∧ (∀ file : List Nat, htmlProbe file = true →
      validateFileType file "video" = false)
  ∧ (∀ (file : List Nat) (kind : String), file.length < 4 →
      validateFileType file kind = false)
  ∧ (∀ file : List Nat, 8 ≤ file.length →
      ¬(byteAt file 0 = 0x89 ∧ byteAt file 1 = 0x50 ∧
        byteAt file 2 = 0x4E ∧ byteAt file 3 = 0x47) →
      htmlProbe file = false →
      byteAt file 4 = 0x66 → byteAt file 5 = 0x74 →
      byteAt file 6 = 0x79 → byteAt file 7 = 0x70 →
      validateFileType file "video" = true) := by
  refine ⟨?_, ?_, ?_, ?_⟩
  · intro file hlen h0 h1 h2 h3
    unfold validateFileType
    rw [if_neg (by omega), if_pos rfl, if_pos ⟨h0, h1, h2, h3⟩]
  · intro file hhtml
    unfold validateFileType
    split_ifs <;> simp_all
  · intro file kind hlen
    unfold validateFileType
    rw [if_pos hlen]
  · intro file hlen hpng hhtml h4 h5 h6 h7
    unfold validateFileType
    rw [if_neg (by omega), if_pos rfl, if_neg hpng, hhtml, if_neg (by simp),
      if_pos ⟨hlen, h4, h5, h6, h7⟩]

/-- C5 witness: concrete instances of the four parts, obtained from
`claim_C5`: an 8-byte PNG-signature file, an HTML file, a 3-byte file,
and a minimal `ftyp` file. -/
theorem claim_C5_witness :
    validateFileType [0x89, 0x50, 0x4E, 0x47, 0, 0, 0, 0] "video" = false
  ∧ validateFileType (strBytes "<html><body>x</body></html>") "video" = false
  ∧ validateFileType [1, 2, 3] "video" = false
  ∧ validateFileType [0, 0, 0, 24, 0x66, 0x74, 0x79, 0x70] "video" = true := by
  refine ⟨?_, ?_, ?_, ?_⟩
  · exact claim_C5.1 [0x89, 0x50, 0x4E, 0x47, 0, 0, 0, 0]
      (by decide) (by decide) (by decide) (by decide) (by decide)
  · exact claim_C5.2.1 (strBytes "<html><body>x</body></html>") (by decide)
  · exact claim_C5.2.2.1 [1, 2, 3] "video" (by decide)
  · exact claim_C5.2.2.2 [0, 0, 0, 24, 0x66, 0x74, 0x79, 0x70]
      (by decide) (by decide) (by decide) (by decide) (by decide)
      (by decide) (by decide)

/-- C10: for every file of at least 4 bytes and every expected kind other
than `image` and `video`, `validateFileType` returns true: the validator
fails open for unknown media kinds. -/
theorem claim_C10 :
    ∀ (file : List Nat) (kind : String), 4 ≤ file.length →
      kind ≠ "image" → kind ≠ "video" →
      validateFileType file kind = true := by
  intro file kind hlen himg hvid
  unfold validateFileType
  rw [if_neg (by omega), if_neg hvid, if_neg himg]

/-- C10 witness: a 4-byte zero file with expected kind `pdf` is accepted. -/
theorem claim_C10_witness : validateFileType [0, 0, 0, 0] "pdf" = true :=
  claim_C10 [0, 0, 0, 0] "pdf" (by decide) (by decide) (by decide)

/-! ### Aggregation helper lemmas -/

theorem aggregateSlides_nil : aggregateSlides [] = [] := by
  simp [aggregateSlides]

theorem aggregateSlides_cons (s : Slide) (rest : List Slide) :
    aggregateSlides (s :: rest) =
      if isSysReq s then
        processRun (s :: rest.takeWhile isSysReq) ++
          aggregateSlides (rest.dropWhile isSysReq)
      else s :: aggregateSlides rest := by
  simp [aggregateSlides]

theorem takeWhile_append_all {α : Type} {p : α → Bool} {l₁ l₂ : List α}
    (h : ∀ x ∈ l₁, p x = true) :
    (l₁ ++ l₂).takeWhile p = l₁ ++ l₂.takeWhile p := by
  induction l₁ with
  | nil => simp
  | cons a t ih =>
    simp [List.takeWhile_cons, h a (by simp), ih (fun x hx => h x (by simp [hx]))]

theorem dropWhile_append_all {α : Type} {p : α → Bool} {l₁ l₂ : List α}
    (h : ∀ x ∈ l₁, p x = true) :
    (l₁ ++ l₂).dropWhile p = l₂.dropWhile p := by
  induction l₁ with
  | nil => simp
  | cons a t ih =>
    simp [List.dropWhile_cons, h a (by simp), ih (fun x hx => h x (by simp [hx]))]

theorem takeWhile_head_false {α : Type} {p : α → Bool} {l : List α}
    (h : ∀ r, l.head? = some r → p r = false) :
    l.takeWhile p = [] := by
  cases l with
  | nil => rfl
  | cons a t => simp [List.takeWhile_cons, h a rfl]

theorem dropWhile_head_false {α : Type} {p : α → Bool} {l : List α}
    (h : ∀ r, l.head? = some r → p r = false) :
    l.dropWhile p = l := by
  cases l with
  | nil => rfl
  | cons a t => simp [List.dropWhile_cons, h a rfl]

/-- Unrolling `aggregateSlides` over one maximal run of target-category
slides followed by a non-category remainder. -/
theorem aggregate_run (run rest : List Slide) (hne : run ≠ [])
    (hall : ∀ s ∈ run, isSysReq s = true)
    (hrest : ∀ r, rest.head? = some r → isSysReq r = false) :
    aggregateSlides (run ++ rest) = processRun run ++ aggregateSlides rest := by
  obtain ⟨s, run', rfl⟩ : ∃ s run', run = s :: run' := by
    cases run with
    | nil => exact absurd rfl hne
    | cons a t => exact ⟨a, t, rfl⟩
  rw [List.cons_append, aggregateSlides_cons, if_pos (hall s (by simp))]
  rw [takeWhile_append_all (fun x hx => hall x (by simp [hx]))]
  rw [dropWhile_append_all (fun x hx => hall x (by simp [hx]))]
  rw [takeWhile_head_false hrest, dropWhile_head_false hrest, List.append_nil]

theorem processRun_eq_flatMap (run : List Slide) :
    processRun run = (run.filter keepSlide).flatMap processSlide := by
  simp only [processRun]
  by_cases h : (run.filter keepSlide).isEmpty
  · rw [if_pos h, List.isEmpty_iff.mp h]
    rfl
  · rw [if_neg h]

theorem sumBlocks_append (l₁ l₂ : List Slide) :
    sumBlocks (l₁ ++ l₂) = sumBlocks l₁ + sumBlocks l₂ := by
  simp [sumBlocks]

theorem sumBlocks_flatMap (l : List Slide) (f : Slide → List Slide) :
    sumBlocks (l.flatMap f) = (l.map fun s => sumBlocks (f s)).sum := by
  induction l with
  | nil => rfl
  | cons a t ih => simp [List.flatMap_cons, sumBlocks_append, ih]

/-- Indices produced by the boundary scan lie in `[i, i + length)`. -/
theorem sectionBoundariesFrom_bounds (c : List ContentBlock) :
    ∀ (i : Nat) (p : Nat × String), p ∈ sectionBoundariesFrom i c →
      i ≤ p.1 ∧ p.1 < i + c.length := by
  induction c with
  | nil => intro i p hp; simp [sectionBoundariesFrom] at hp
  | cons b t ih =>
    intro i p hp
    unfold sectionBoundariesFrom at hp
    by_cases hb : isSectionHeader b
    · rw [if_pos hb] at hp
      rcases List.mem_cons.mp hp with h | h
      · subst h
        refine ⟨Nat.le_refl _, ?_⟩
        simp only [List.length_cons]
        omega
      · have := ih (i + 1) p h
        refine ⟨by omega, ?_⟩
        simp only [List.length_cons]
        omega
    · rw [if_neg hb] at hp
      have := ih (i + 1) p hp
      refine ⟨by omega, ?_⟩
      simp only [List.length_cons]
      omega

/-- The boundary indices are strictly increasing. -/
theorem sectionBoundariesFrom_pairwise (c : List ContentBlock) :
    ∀ i : Nat, ((sectionBoundariesFrom i c).map Prod.fst).Pairwise (· < ·) := by
  induction c with
  | nil => intro i; simp [sectionBoundariesFrom]
  | cons b t ih =>
    intro i
    unfold sectionBoundariesFrom
    by_cases hb : isSectionHeader b
    · rw [if_pos hb]
      simp only [List.map_cons]
      refine List.pairwise_cons.mpr ⟨?_, ih (i + 1)⟩
      intro x hx
      obtain ⟨p, hp, rfl⟩ := List.mem_map.mp hx
      have := sectionBoundariesFrom_bounds t (i + 1) p hp
      omega
    · rw [if_neg hb]
      exact ih (i + 1)

/-- Every boundary's name is drawn from the section vocabulary. -/
theorem sectionBoundariesFrom_name (c : List ContentBlock) :
    ∀ (i : Nat) (p : Nat × String), p ∈ sectionBoundariesFrom i c →
      p.2 ∈ sectionVocabulary := by
  induction c with
  | nil => intro i p hp; simp [sectionBoundariesFrom] at hp
  | cons b t ih =>
    intro i p hp
    unfold sectionBoundariesFrom at hp
    by_cases hb : isSectionHeader b
    · rw [if_pos hb] at hp
      rcases List.mem_cons.mp hp with h | h
      · subst h
        have hcont : sectionVocabulary.contains (jsTrim b.text) = true := by
          have hb' := hb
          simp only [isSectionHeader, Bool.and_eq_true] at hb'
          exact hb'.2
        simpa using hcont
      · exact ih (i + 1) p h
    · rw [if_neg hb] at hp
      exact ih (i + 1) p hp

theorem vocab_ne_empty : ∀ n ∈ sectionVocabulary, n ≠ "" := by decide

/-- Telescoping sum of the section-segment lengths: splitting
`[b₀, b₁, ..., bₖ]` against `len` covers exactly `len - b₀` blocks. -/
theorem segment_telescope (len : Nat) :
    ∀ bnds : List (Nat × String), bnds ≠ [] →
      ((bnds.map Prod.fst) ++ [len]).Pairwise (· ≤ ·) →
      ((bnds.zip ((bnds.map Prod.fst).tail ++ [len])).map
        (fun pr => min (pr.2 - pr.1.1) (len - pr.1.1))).sum =
        len - (bnds.headD (0, "")).1 := by
  intro bnds
  induction bnds with
  | nil => intro h; exact absurd rfl h
  | cons p rest ih =>
    intro _ hpw
    cases rest with
    | nil =>
      simp only [List.map_cons, List.map_nil, List.tail_cons, List.nil_append,
        List.zip_cons_cons, List.zip_nil_left, List.map_cons, List.map_nil,
        List.sum_cons, List.sum_nil, List.headD_cons]
      have hle : p.1 ≤ len := by
        simp only [List.map_cons, List.map_nil, List.cons_append, List.nil_append,
          List.pairwise_cons] at hpw
        exact hpw.1 len (by simp)
      omega
    | cons q t =>
      have hpw' : ((q :: t).map Prod.fst ++ [len]).Pairwise (· ≤ ·) := by
        simp only [List.map_cons, List.cons_append, List.pairwise_cons] at hpw ⊢
        exact hpw.2
      have hrec := ih (by simp) hpw'
      have hpq : p.1 ≤ q.1 := by
        simp only [List.map_cons, List.cons_append, List.pairwise_cons] at hpw
        exact hpw.1 q.1 (by simp)
      have hqlen : q.1 ≤ len := by
        simp only [List.map_cons, List.cons_append, List.pairwise_cons] at hpw
        exact hpw.2.1 len (by simp)
      simp only [List.map_cons, List.tail_cons, List.cons_append,
        List.zip_cons_cons, List.map_cons, List.sum_cons, List.headD_cons] at hrec ⊢
      rw [hrec]
      omega

/-- Sortedness input for the telescoping lemma, from the boundary scan of a
slide's content. -/
theorem boundaries_pairwise_le (c : List ContentBlock) :
    (((sectionBoundaries c).map Prod.fst) ++ [c.length]).Pairwise (· ≤ ·) := by
  rw [List.pairwise_append]
  refine ⟨(sectionBoundariesFrom_pairwise c 0).imp (fun h => Nat.le_of_lt h), by simp, ?_⟩
  intro a ha b hb
  obtain ⟨p, hp, rfl⟩ := List.mem_map.mp ha
  have := sectionBoundariesFrom_bounds c 0 p hp
  simp only [List.mem_singleton] at hb
  subst hb
  omega

/-- The block count of the slides derived from one surviving slide: the
slide's block count, minus the leading blocks the multi-section split
discards. -/
theorem processSlide_blocks (s : Slide) :
    sumBlocks (processSlide s) = s.content.length - droppedLeading s := by
  unfold processSlide droppedLeading
  by_cases h1 : 1 < (sectionBoundaries s.content).length ∧
      MAX_ITEMS_PER_SLIDE < s.content.length
  · rw [if_pos h1, if_pos h1]
    have hne : sectionBoundaries s.content ≠ [] := by
      intro h
      rw [h] at h1
      simp at h1
    have hsum : sumBlocks (splitBySections s s.content (sectionBoundaries s.content)) =
        (((sectionBoundaries s.content).zip
            (((sectionBoundaries s.content).map Prod.fst).tail ++ [s.content.length])).map
          (fun pr => min (pr.2 - pr.1.1) (s.content.length - pr.1.1))).sum := by
      unfold splitBySections sumBlocks
      rw [List.map_map]
      refine congrArg List.sum ?_
      apply List.map_congr_left
      intro pr _
      simp [List.length_take, List.length_drop]
    rw [hsum, segment_telescope s.content.length _ hne (boundaries_pairwise_le s.content)]
  · rw [if_neg h1, if_neg h1]
    by_cases h2 : MAX_ITEMS_PER_SLIDE < s.content.length ∧
        (sectionBoundaries s.content).length = 1
    · rw [if_pos h2]
      have h10 : MAX_ITEMS_PER_SLIDE = 10 := rfl
      simp only [sumBlocks, List.map_cons, List.map_nil, List.sum_cons, List.sum_nil,
        List.length_take, List.length_drop]
      omega
    · rw [if_neg h2]
      simp [sumBlocks]

/-! ### Claims about the content aggregator -/

/-- C2 counterexample: `c2Slide` carries no trivial phrasing, yet
`aggregateSlides` drops it (its block count 1 is below the threshold), so
"dropped exactly when trivial phrasing AND low block count" is false. -/
theorem claim_C2_counterexample :
    aggregateSlides [c2Slide] = [] ∧ trivialPhrasing c2Slide.content = false ∧
      isSysReq c2Slide = true := by
  refine ⟨?_, by decide, by decide⟩
  rw [show ([c2Slide] : List Slide) = c2Slide :: [] from rfl, aggregateSlides_cons,
    if_pos (by decide)]
  simp only [List.takeWhile_nil, List.dropWhile_nil, aggregateSlides_nil, List.append_nil]
  decide

/-- C2 (amended): over a maximal target-category run, `aggregateSlides`
derives output from exactly the slides that neither match the trivial
phrasing NOR have at most 2 blocks - i.e. a slide is dropped when it is
trivially phrased OR its block count is below the threshold - and when
every slide of the run is trivial-or-short the entire run is dropped. -/
theorem claim_C2 (run rest : List Slide) (hne : run ≠ [])
    (hall : ∀ s ∈ run, isSysReq s = true)
    (hrest : ∀ r, rest.head? = some r → isSysReq r = false) :
    aggregateSlides (run ++ rest) =
      (run.filter (fun s =>
        !(trivialPhrasing s.content || decide (s.content.length ≤ 2)))).flatMap
          processSlide ++ aggregateSlides rest
  ∧ ((∀ s ∈ run, trivialPhrasing s.content = true ∨ s.content.length ≤ 2) →
      aggregateSlides (run ++ rest) = aggregateSlides rest) := by
  have hfilter : run.filter (fun s =>
      !(trivialPhrasing s.content || decide (s.content.length ≤ 2))) =
      run.filter keepSlide := by
    apply List.filter_congr
    intro s _
    simp only [keepSlide, trivialPhrasing]
    cases h1 : strHas (joinedText s.content) "none required" <;>
      cases h2 : strHas (joinedText s.content) "standard source" <;>
        cases h3 : powerStandard (joinedText s.content).toList <;>
          by_cases h4 : 2 < s.content.length <;>
            simp [h1, h2, h3, h4] <;> try omega
  constructor
  · rw [aggregate_run run rest hne hall hrest, processRun_eq_flatMap, hfilter]
  · intro hdrop
    rw [aggregate_run run rest hne hall hrest, processRun_eq_flatMap]
    have hnil : run.filter keepSlide = [] := by
      rw [← hfilter]
      apply List.filter_eq_nil_iff.mpr
      intro s hs
      rcases hdrop s hs with h | h <;> simp [h]
    rw [hnil]
    rfl

/-- C2 witness: the amended statement applied to the concrete
single-slide run `[c2Slide]` (which the filter drops entirely). -/
theorem claim_C2_witness :
    aggregateSlides ([c2Slide] ++ []) =
      ([c2Slide].filter (fun s =>
        !(trivialPhrasing s.content || decide (s.content.length ≤ 2)))).flatMap
          processSlide ++ aggregateSlides []
  ∧ ((∀ s ∈ [c2Slide], trivialPhrasing s.content = true ∨ s.content.length ≤ 2) →
      aggregateSlides ([c2Slide] ++ []) = aggregateSlides []) :=
  claim_C2 [c2Slide] [] (by simp) (by intro s hs; rw [List.mem_singleton.mp hs]; decide)
    (by intro r h; simp at h)

/-- C1 counterexample: `c1Slide` survives the filter with 12 blocks, yet
the slides derived from its run carry only 11 blocks - the multi-section
split discards the block before the first section header, so the
block-conservation invariant fails. -/
theorem claim_C1_counterexample :
    sumBlocks (aggregateSlides [c1Slide]) = 11 ∧ keepSlide c1Slide = true ∧
      c1Slide.content.length = 12 := by
  refine ⟨?_, by decide, by decide⟩
  rw [show ([c1Slide] : List Slide) = c1Slide :: [] from rfl, aggregateSlides_cons,
    if_pos (by decide)]
  simp only [List.takeWhile_nil, List.dropWhile_nil, aggregateSlides_nil, List.append_nil]
  decide

/-- C1 (amended): for a maximal target-category run, the total block count
of the derived slides equals the sum over the retained (non-trivial)
input slides of their block count minus the blocks preceding their first
section header when the multi-section split applies (`droppedLeading`);
in particular the invariant as stated holds exactly when no retained
section-split slide has content before its first header. -/
theorem claim_C1 (run rest : List Slide) (hne : run ≠ [])
    (hall : ∀ s ∈ run, isSysReq s = true)
    (hrest : ∀ r, rest.head? = some r → isSysReq r = false) :
    sumBlocks (aggregateSlides (run ++ rest)) =
      ((run.filter keepSlide).map
        (fun s => s.content.length - droppedLeading s)).sum +
        sumBlocks (aggregateSlides rest) := by
  rw [aggregate_run run rest hne hall hrest, sumBlocks_append,
    processRun_eq_flatMap, sumBlocks_flatMap]
  congr 1
  simp only [processSlide_blocks]

/-- C1 witness: the amended statement applied to the single-slide run
`[c1WSlide]`, whose first block is a section header. -/
theorem claim_C1_witness :
    sumBlocks (aggregateSlides ([c1WSlide] ++ [])) =
      (([c1WSlide].filter keepSlide).map
        (fun s => s.content.length - droppedLeading s)).sum +
        sumBlocks (aggregateSlides []) :=
  claim_C1 [c1WSlide] [] (by simp)
    (by intro s hs; rw [List.mem_singleton.mp hs]; decide)
    (by intro r h; simp at h)

/-- C7: a single-slide target-category run whose content holds exactly the
two section boundaries `Network` and `Camera` and 12 blocks in total is
split into exactly 2 derived slides, one per section, titled
`System Requirements: Network` / `System Requirements: Camera`, each
carrying exactly its section's blocks. -/
theorem claim_C7 (s : Slide) (i j : Nat)
    (hsys : isSysReq s = true) (hkeep : keepSlide s = true)
    (hlen : s.content.length = 12)
    (hb : sectionBoundaries s.content = [(i, "Network"), (j, "Camera")]) :
    aggregateSlides [s] =
      [{ s with
          title := "System Requirements: Network"
          content := (s.content.drop i).take (j - i)
          group := some "network" },
       { s with
          title := "System Requirements: Camera"
          content := (s.content.drop j).take (12 - j)
          group := some "camera" }] := by
  have h1 : aggregateSlides [s] = processRun [s] := by
    rw [show ([s] : List Slide) = s :: [] from rfl, aggregateSlides_cons, if_pos hsys]
    simp [aggregateSlides_nil]
  rw [h1, processRun_eq_flatMap]
  rw [show ([s] : List Slide).filter keepSlide = [s] by simp [List.filter_cons, hkeep]]
  rw [show ([s] : List Slide).flatMap processSlide = processSlide s by simp]
  simp only [processSlide]
  rw [hb, hlen]
  rw [if_pos (by refine ⟨by simp, by decide⟩)]
  simp only [splitBySections]
  rw [hlen]
  simp only [List.map_cons, List.map_nil, List.tail_cons, List.nil_append,
    List.cons_append, List.zip_cons_cons, List.zip_nil_left, List.zip_nil_right,
    List.map_nil, List.cons.injEq, Slide.mk.injEq, and_true, true_and]
  decide

/-- C7 witness: the concrete 12-block slide `c7Slide` with `Network` at
index 0 and `Camera` at index 6. -/
theorem claim_C7_witness :
    aggregateSlides [c7Slide] =
      [{ c7Slide with
          title := "System Requirements: Network"
          content := (c7Slide.content.drop 0).take (6 - 0)
          group := some "network" },
       { c7Slide with
          title := "System Requirements: Camera"
          content := (c7Slide.content.drop 6).take (12 - 6)
          group := some "camera" }] :=
  claim_C7 c7Slide 0 6 (by decide) (by decide) (by decide) (by decide)

/-- C8: a target-category run of one slide with 14 content blocks and
exactly one section boundary is split into exactly 2 derived slides whose
titles carry the `(1/2)` and `(2/2)` suffixes, each carrying exactly 7
blocks, in order (the first 7 then the last 7). -/
theorem claim_C8 (s : Slide) (i : Nat) (nm : String)
    (hsys : isSysReq s = true) (hkeep : keepSlide s = true)
    (hlen : s.content.length = 14)
    (hb : sectionBoundaries s.content = [(i, nm)]) :
    aggregateSlides [s] =
      [{ s with
          title := baseTitle ++ ": " ++ nm ++ " (1/2)"
          content := s.content.take 7
          group := some "split_1" },
       { s with
          title := baseTitle ++ ": " ++ nm ++ " (2/2)"
          content := s.content.drop 7
          group := some "split_2" }]
  ∧ (s.content.take 7).length = 7 ∧ (s.content.drop 7).length = 7 := by
  have hnm : nm ∈ sectionVocabulary := by
    have : (i, nm) ∈ sectionBoundaries s.content := by rw [hb]; simp
    exact sectionBoundariesFrom_name s.content 0 (i, nm) this
  have hnme : nm ≠ "" := vocab_ne_empty nm hnm
  have h1 : aggregateSlides [s] = processRun [s] := by
    rw [show ([s] : List Slide) = s :: [] from rfl, aggregateSlides_cons, if_pos hsys]
    simp [aggregateSlides_nil]
  refine ⟨?_, by simp [List.length_take, hlen], by simp [List.length_drop, hlen]⟩
  rw [h1, processRun_eq_flatMap]
  rw [show ([s] : List Slide).filter keepSlide = [s] by simp [List.filter_cons, hkeep]]
  rw [show ([s] : List Slide).flatMap processSlide = processSlide s by simp]
  simp only [processSlide]
  rw [hb, hlen]
  rw [if_neg (by intro h; simp at h)]
  rw [if_pos (by refine ⟨by decide, by simp⟩)]
  simp only [List.headD_cons]
  rw [if_neg hnme, if_neg hnme]

/-- C8 witness: the concrete 14-block slide `c8Slide` with its single
`Dashboard` boundary at index 0. -/
theorem claim_C8_witness :
    (aggregateSlides [c8Slide] =
      [{ c8Slide with
          title := baseTitle ++ ": " ++ "Dashboard" ++ " (1/2)"
          content := c8Slide.content.take 7
          group := some "split_1" },
       { c8Slide with
          title := baseTitle ++ ": " ++ "Dashboard" ++ " (2/2)"
          content := c8Slide.content.drop 7
          group := some "split_2" }]
  ∧ (c8Slide.content.take 7).length = 7 ∧ (c8Slide.content.drop 7).length = 7) :=
  claim_C8 c8Slide 0 "Dashboard" (by decide) (by decide) (by decide) (by decide)

/-! ### Claims about the fetcher and the diagram renderer -/

/-- C9: direct retrieval follows a bounded number of redirects: an
exhausted budget terminates the strategy with a failure before any
request; a redirect response retries at the `Location` header resolved to
an absolute URL with the budget decremented; and the number of requests
one call issues never exceeds its budget (the callers' budget is 5). -/
theorem claim_C9 :
    (∀ (env : Env) (dest : String) (follow : Bool) (url : String) (fs : FS),
      downloadFileDirect env dest follow 0 url fs =
        (.error "Too many redirects", fs, []))
  ∧ (∀ (env : Env) (dest : String) (b : Nat) (url : String) (fs : FS)
      (st : Nat) (l ct : String) (body : List Nat) (w : Bool),
      env.get url = .resp st (some l) ct body w → 300 ≤ st → st < 400 →
      downloadFileDirect env dest true (b + 1) url fs =
        ((downloadFileDirect env dest true b (resolveLocation l url) fs).1,
         (downloadFileDirect env dest true b (resolveLocation l url) fs).2.1,
         url :: (downloadFileDirect env dest true b (resolveLocation l url) fs).2.2))
  ∧ (∀ (env : Env) (dest : String) (follow : Bool) (budget : Nat)
      (url : String) (fs : FS),
      (downloadFileDirect env dest follow budget url fs).2.2.length ≤ budget) := by
  refine ⟨fun env dest follow url fs => rfl, ?_, ?_⟩
  · intro env dest b url fs st l ct body w hget h300 h400
    simp only [downloadFileDirect, hget]
    rw [if_pos ⟨trivial, h300, h400⟩]
  · intro env dest follow budget
    induction budget with
    | zero => intro url fs; simp [downloadFileDirect]
    | succ b ih =>
      intro url fs
      simp only [downloadFileDirect]
      cases hget : env.get url with
      | err => simp
      | resp st loc ct body w =>
        cases loc with
        | some l =>
          dsimp only
          by_cases hc : (follow = true) ∧ 300 ≤ st ∧ st < 400
          · rw [if_pos hc]
            simp only [List.length_cons]
            have := ih (resolveLocation l url) fs
            omega
          · rw [if_neg hc]
            by_cases h200 : st ≠ 200
            · rw [if_pos h200]
              simp only [List.length_cons, List.length_nil]
              omega
            · rw [if_neg h200]
              by_cases hw : w = true
              · rw [if_pos hw]
                simp only [List.length_cons, List.length_nil]
                omega
              · rw [if_neg hw]
                simp only [List.length_cons, List.length_nil]
                omega
        | none =>
          dsimp only
          by_cases h200 : st ≠ 200
          · rw [if_pos h200]
            simp only [List.length_cons, List.length_nil]
            omega
          · rw [if_neg h200]
            by_cases hw : w = true
            · rw [if_pos hw]
              simp only [List.length_cons, List.length_nil]
              omega
            · rw [if_neg hw]
              simp only [List.length_cons, List.length_nil]
              omega

/-- C9 witness: in a redirecting environment, a zero budget rejects
immediately with no request; one redirect step recurses on the absolute
`Location`; and a budget of 5 issues at most 5 requests. -/
theorem claim_C9_witness :
    downloadFileDirect env9 "/d" true 0 "http://loop/a" emptyFS =
      (.error "Too many redirects", emptyFS, [])
  ∧ downloadFileDirect env9 "/d" true 3 "http://loop/a" emptyFS =
      ((downloadFileDirect env9 "/d" true 2
          (resolveLocation "http://loop/a" "http://loop/a") emptyFS).1,
       (downloadFileDirect env9 "/d" true 2
          (resolveLocation "http://loop/a" "http://loop/a") emptyFS).2.1,
       "http://loop/a" :: (downloadFileDirect env9 "/d" true 2
          (resolveLocation "http://loop/a" "http://loop/a") emptyFS).2.2)
  ∧ (downloadFileDirect env9 "/d" true 5 "http://loop/a" emptyFS).2.2.length ≤ 5 :=
  ⟨claim_C9.1 env9 "/d" true "http://loop/a" emptyFS,
   claim_C9.2.1 env9 "/d" 2 "http://loop/a" emptyFS 302 "http://loop/a" "" [] true
     rfl (by decide) (by decide),
   claim_C9.2.2 env9 "/d" true 5 "http://loop/a" emptyFS⟩

/-- C6: the orchestrator skips a diagram whose source is empty or
whitespace-only - the renderer (and so the external engine) is not
invoked, the filesystem is untouched, no asset is recorded, and no error
state arises; for nonempty source with the engine unavailable and the
raster generator working, the renderer returns the output path and leaves
a non-empty placeholder image file there. -/
theorem claim_C6 :
    (∀ (env : Env) (code out : String) (fs : FS), jsTrim code = "" →
      diagramStep env code out fs = (fs, false, none))
  ∧ (∀ (env : Env) (code out : String) (fs : FS) (png : List Nat),
      jsTrim code ≠ "" → env.mmdcOk = false → env.sharp = some png → png ≠ [] →
      (renderMermaidDiagram env code out fs).1 = some out ∧
        (renderMermaidDiagram env code out fs).2.1 out = some png ∧ png ≠ []) := by
  constructor
  · intro env code out fs h
    unfold diagramStep
    rw [if_neg (by simp [h])]
  · intro env code out fs png hcode hmmdc hsharp hpng
    unfold renderMermaidDiagram
    rw [hmmdc, hsharp]
    simp [setF, hpng]

/-- C6 witness: whitespace-only source is skipped outright; the source
`graph TD` with the engine unavailable in `env6` leaves the 4-byte
placeholder at the output path. -/
theorem claim_C6_witness :
    diagramStep env6 "   " "/out.png" emptyFS = (emptyFS, false, none)
  ∧ ((renderMermaidDiagram env6 "graph TD" "/out.png" emptyFS).1 = some "/out.png" ∧
      (renderMermaidDiagram env6 "graph TD" "/out.png" emptyFS).2.1 "/out.png" =
        some [0x89, 0x50, 0x4E, 0x47] ∧ ([0x89, 0x50, 0x4E, 0x47] : List Nat) ≠ []) :=
  ⟨claim_C6.1 env6 "   " "/out.png" emptyFS (by decide),
   claim_C6.2 env6 "graph TD" "/out.png" emptyFS [0x89, 0x50, 0x4E, 0x47]
     (by decide) rfl rfl (by decide)⟩

/-! ### Fetcher helper lemmas -/

theorem AcceptOk.mono {dest : String} {P Q : List Nat → Prop}
    {r : Option String × FS} (hpq : ∀ b, P b → Q b) (h : AcceptOk dest P r) :
    AcceptOk dest Q r := by
  rcases h with h | ⟨h1, b, h2, h3⟩
  · exact Or.inl h
  · exact Or.inr ⟨h1, b, h2, hpq b h3⟩

/-- The repeated download-validate block only accepts a validated file of
more than 1000 bytes, left at the destination. -/
theorem tdv_spec (env : Env) (url dest : String) (iv : Bool) (fs : FS) :
    AcceptOk dest (fun b => validateFileType b (kindStr iv) = true ∧ 1000 < b.length)
      (tryDirectValidated env url dest iv fs) := by
  simp only [tryDirectValidated, AcceptOk]
  cases hr : (downloadFileDirect env dest true 5 url fs).1 with
  | error e => simp
  | ok u =>
    cases hb : (downloadFileDirect env dest true 5 url fs).2.1 dest with
    | none => simp
    | some bytes =>
      dsimp only
      by_cases hl : 1000 < bytes.length
      · rw [if_pos hl]
        by_cases hv : validateFileType bytes (kindStr iv) = true
        · rw [if_pos hv]
          exact Or.inr ⟨rfl, bytes, hb, hv, hl⟩
        · rw [if_neg hv]
          simp
      · rw [if_neg hl]
        simp

/-- Saving a browser download only accepts a validated file, left at the
destination. -/
theorem pwSave_spec (dest : String) (iv : Bool) (b : List Nat) (fs : FS) :
    AcceptOk dest (fun x => validateFileType x (kindStr iv) = true)
      (pwSaveDownload dest iv b fs) := by
  simp only [pwSaveDownload, AcceptOk]
  by_cases hl : 0 < b.length
  · rw [if_pos hl]
    by_cases hv : validateFileType b (kindStr iv) = true
    · rw [if_pos hv]
      exact Or.inr ⟨rfl, b, by simp [setF], hv⟩
    · rw [if_neg hv]
      simp
  · rw [if_neg hl]
    simp

/-- The Google-Drive token strategies only accept a validated file of more
than 1000 bytes, left at the destination. -/
theorem gdrive_spec (env : Env) (fileId dest : String) (iv : Bool)
    (fuel : Nat) (fs : FS) :
    AcceptOk dest (fun b => validateFileType b (kindStr iv) = true ∧ 1000 < b.length)
      (downloadGoogleDriveFile env fileId dest iv fuel fs) := by
  simp only [downloadGoogleDriveFile]
  have h1 := tdv_spec env (driveDownloadUrl fileId) dest iv fs
  rcases hr1 : tryDirectValidated env (driveDownloadUrl fileId) dest iv fs with ⟨r1, fs1⟩
  rw [hr1] at h1
  cases r1 with
  | some p => exact h1
  | none =>
    dsimp only
    cases hf : fetchResponse env fuel (driveDownloadUrl fileId) with
    | error e => simp [AcceptOk]
    | ok pr =>
      rcases pr with ⟨ctype, body⟩
      dsimp only
      by_cases hhtml : strHas (jsToLower ctype) "text/html" = true ∨
          listHas (bytesLower (body.take 100)) ("<!doctype".toList) = true
      · rw [if_pos hhtml]
        cases hcap : findCapture ("confirm=".toList) (bytesAscii body) with
        | some tok =>
          dsimp only
          have h2 := tdv_spec env
            (driveDownloadUrl fileId ++ "&confirm=" ++ tok) dest iv fs1
          rcases hr2 : tryDirectValidated env
              (driveDownloadUrl fileId ++ "&confirm=" ++ tok) dest iv fs1 with ⟨r2, fs2⟩
          rw [hr2] at h2
          cases r2 with
          | some p => exact h2
          | none => exact tdv_spec env (driveDownloadUrl fileId ++ "&confirm=t") dest iv fs2
        | none =>
          dsimp only
          exact tdv_spec env (driveDownloadUrl fileId ++ "&confirm=t") dest iv fs1
      · rw [if_neg hhtml]
        by_cases hl : 1000 < body.length
        · rw [if_pos hl]
          by_cases hv : validateFileType body (kindStr iv) = true
          · rw [if_pos hv]
            exact Or.inr ⟨rfl, body, by simp [setF], hv, hl⟩
          · rw [if_neg hv]
            simp [AcceptOk]
        · rw [if_neg hl]
          simp [AcceptOk]

/-- The `googleusercontent` sub-path only accepts a validated file, left
at the destination. -/
theorem guc_spec (env : Env) (dest : String) (iv : Bool) (fs : FS) :
    AcceptOk dest (fun b => validateFileType b (kindStr iv) = true)
      (gucAttempt env dest iv fs) := by
  simp only [gucAttempt]
  cases hg : (if iv then env.pwGuc else none) with
  | none => simp [AcceptOk]
  | some b =>
    dsimp only
    by_cases hl : 1000 < b.length
    · rw [if_pos hl]
      by_cases hv : validateFileType b (kindStr iv) = true
      · rw [if_pos hv]
        exact Or.inr ⟨rfl, b, by simp [setF], hv⟩
      · rw [if_neg hv]
        simp [AcceptOk]
    · rw [if_neg hl]
      simp [AcceptOk]

/-- The Playwright fallback for Drive URLs only accepts a validated file,
left at the destination. -/
theorem drivePW_spec (env : Env) (dest : String) (iv : Bool) (fs : FS) :
    AcceptOk dest (fun b => validateFileType b (kindStr iv) = true)
      (drivePlaywright env dest iv fs) := by
  simp only [drivePlaywright]
  cases env.pwDriveImmediate with
  | some b => exact pwSave_spec dest iv b fs
  | none =>
    dsimp only
    have h1 := guc_spec env dest iv fs
    rcases hg : gucAttempt env dest iv fs with ⟨rg, fsg⟩
    rw [hg] at h1
    cases rg with
    | some p => exact h1
    | none =>
      dsimp only
      cases env.pwClick with
      | some b => exact pwSave_spec dest iv b fsg
      | none => simp [AcceptOk]

/-- The image view-URL strategy accepts exactly on the size gate, leaving
the oversized file at the destination unvalidated. -/
theorem view_spec (env : Env) (fileId dest : String) (fs : FS) :
    AcceptOk dest (fun b => 1000 < b.length) (viewUrlAttempt env fileId dest fs) := by
  simp only [viewUrlAttempt]
  cases hd : (downloadFileDirect env dest true 5
      ("https://drive.google.com/uc?export=view&id=" ++ fileId) fs).1 with
  | error e => simp [AcceptOk]
  | ok u =>
    dsimp only
    cases hb : (downloadFileDirect env dest true 5
        ("https://drive.google.com/uc?export=view&id=" ++ fileId) fs).2.1 dest with
    | none => simp [AcceptOk]
    | some bytes =>
      dsimp only
      by_cases hl : 1000 < bytes.length
      · rw [if_pos hl]
        exact Or.inr ⟨rfl, bytes, hb, hl⟩
      · rw [if_neg hl]
        simp [AcceptOk]

/-- The plain-URL branch only accepts a validated file, left at the
destination. -/
theorem plain_spec (env : Env) (url dest : String) (iv : Bool) (fs : FS) :
    AcceptOk dest (fun b => validateFileType b (kindStr iv) = true)
      (plainUrlAttempt env url dest iv fs) := by
  simp only [plainUrlAttempt]
  cases hd : (downloadFileDirect env dest true 5 url fs).1 with
  | ok u =>
    dsimp only
    cases hb : (downloadFileDirect env dest true 5 url fs).2.1 dest with
    | none => simp [AcceptOk]
    | some bytes =>
      dsimp only
      by_cases hl : 0 < bytes.length
      · rw [if_pos hl]
        by_cases hv : validateFileType bytes (kindStr iv) = true
        · rw [if_pos hv]
          exact Or.inr ⟨rfl, bytes, hb, hv⟩
        · rw [if_neg hv]
          simp [AcceptOk]
      · rw [if_neg hl]
        simp [AcceptOk]
  | error e =>
    dsimp only
    cases env.pwPlain with
    | none => simp [AcceptOk]
    | some body =>
      dsimp only
      by_cases hl : 0 < body.length
      · rw [if_pos hl]
        by_cases hv : validateFileType body (kindStr iv) = true
        · rw [if_pos hv]
          exact Or.inr ⟨rfl, body, by simp [setF], hv⟩
        · rw [if_neg hv]
          simp [AcceptOk]
      · rw [if_neg hl]
        simp [AcceptOk]

/-- Master acceptance lemma for `downloadFile`: a returned path is always
the destination path, and the file left there was either accepted by the
magic-byte validator or accepted by the image view-URL strategy on its
size alone. -/
theorem downloadFile_acceptSpec (env : Env) (url dest : String) (iv : Bool)
    (fuel : Nat) (fs : FS) :
    AcceptOk dest
      (fun b => validateFileType b (kindStr iv) = true ∨ (iv = false ∧ 1000 < b.length))
      (downloadFile env url dest iv fuel fs) := by
  simp only [downloadFile]
  by_cases htrim : jsTrim url = ""
  · rw [if_pos htrim]
    simp [AcceptOk]
  · rw [if_neg htrim]
    cases hid : extractGoogleDriveId url with
    | none => exact (plain_spec env url dest iv fs).mono (fun b hb => Or.inl hb)
    | some fileId =>
      dsimp only
      have h1 : AcceptOk dest
          (fun b => validateFileType b (kindStr iv) = true ∨ (iv = false ∧ 1000 < b.length))
          (downloadGoogleDriveFile env fileId dest iv fuel fs) :=
        (gdrive_spec env fileId dest iv fuel fs).mono (fun b hb => Or.inl hb.1)
      rcases hr1 : downloadGoogleDriveFile env fileId dest iv fuel fs with ⟨r1, fs1⟩
      rw [hr1] at h1
      cases r1 with
      | some p => exact h1
      | none =>
        dsimp only
        have h2 : AcceptOk dest
            (fun b => validateFileType b (kindStr iv) = true ∨ (iv = false ∧ 1000 < b.length))
            (if iv = true then ((none : Option String), fs1)
              else viewUrlAttempt env fileId dest fs1) := by
          by_cases hiv : iv = true
          · rw [if_pos hiv]
            simp [AcceptOk]
          · rw [if_neg hiv]
            exact (view_spec env fileId dest fs1).mono
              (fun b hb => Or.inr ⟨Bool.eq_false_iff.mpr hiv, hb⟩)
        rcases hv2 : (if iv = true then ((none : Option String), fs1)
            else viewUrlAttempt env fileId dest fs1) with ⟨r2, fs2⟩
        rw [hv2] at h2
        cases r2 with
        | some p => exact h2
        | none =>
          dsimp only
          exact (drivePW_spec env dest iv fs2).mono (fun b hb => Or.inl hb)

/-- In the repeated Google-Drive download block, a retrieved file that is
large enough to be validated and fails validation is deleted before the
next strategy runs. -/
theorem tdv_deletes_invalid (env : Env) (url dest : String) (iv : Bool)
    (fs : FS) (b : List Nat)
    (hok : (downloadFileDirect env dest true 5 url fs).1 = .ok ())
    (hbytes : (downloadFileDirect env dest true 5 url fs).2.1 dest = some b)
    (hl : 1000 < b.length)
    (hv : validateFileType b (kindStr iv) = false) :
    (tryDirectValidated env url dest iv fs).1 = none ∧
      (tryDirectValidated env url dest iv fs).2 dest = none := by
  simp only [tryDirectValidated, hok, hbytes]
  rw [if_pos hl, if_neg (by simp [hv])]
  exact ⟨rfl, by simp [setF]⟩

/-- C3 counterexample: for the plain URL `http://host/a` whose direct
download delivers a small HTML page, `downloadFile` runs the validator,
the validator rejects, yet the file is not deleted: all strategies are
exhausted, `null` is returned, and the rejected partial file is still at
the destination path. -/
theorem claim_C3_counterexample :
    (downloadFile env3 "http://host/a" "/d" true 1 emptyFS).1 = none
  ∧ (downloadFile env3 "http://host/a" "/d" true 1 emptyFS).2 "/d" =
      some (strBytes "<html>")
  ∧ validateFileType (strBytes "<html>") "video" = false := by
  refine ⟨?_, ?_, by decide⟩ <;> decide

/-- C3 (amended): every file `downloadFile` accepts is left at the
destination path and was either passed by the file-type validator or
accepted by the image view-URL strategy on its size alone (that strategy
skips validation); and within the Google-Drive token strategies, a
retrieved file that fails validation is deleted before the next strategy.
However (see the counterexample) the plain-URL paths do not delete a
rejected file, so exhausting all strategies can leave a partial file at
the destination. -/
theorem claim_C3 :
    (∀ (env : Env) (url dest : String) (iv : Bool) (fuel : Nat) (fs : FS),
      AcceptOk dest
        (fun b => validateFileType b (kindStr iv) = true ∨ (iv = false ∧ 1000 < b.length))
        (downloadFile env url dest iv fuel fs))
  ∧ (∀ (env : Env) (url dest : String) (iv : Bool) (fs : FS) (b : List Nat),
      (downloadFileDirect env dest true 5 url fs).1 = .ok () →
      (downloadFileDirect env dest true 5 url fs).2.1 dest = some b →
      1000 < b.length →
      validateFileType b (kindStr iv) = false →
      (tryDirectValidated env url dest iv fs).1 = none ∧
        (tryDirectValidated env url dest iv fs).2 dest = none) :=
  ⟨fun env url dest iv fuel fs => downloadFile_acceptSpec env url dest iv fuel fs,
   fun env url dest iv fs b hok hb hl hv => tdv_deletes_invalid env url dest iv fs b hok hb hl hv⟩

set_option maxRecDepth 40000 in
/-- C3 witness: the acceptance specification at the concrete environment
`env3`, and the delete-on-rejection property at `envW3`, where the direct
download succeeds with an oversized invalid file. -/
theorem claim_C3_witness :
    AcceptOk "/d"
      (fun b => validateFileType b (kindStr true) = true ∨ (true = false ∧ 1000 < b.length))
      (downloadFile env3 "http://host/a" "/d" true 1 emptyFS)
  ∧ ((tryDirectValidated envW3 "http://h/x" "/d" true emptyFS).1 = none ∧
      (tryDirectValidated envW3 "http://h/x" "/d" true emptyFS).2 "/d" = none) :=
  ⟨claim_C3.1 env3 "http://host/a" "/d" true 1 emptyFS,
   claim_C3.2 envW3 "http://h/x" "/d" true emptyFS (List.replicate 1001 0)
     rfl rfl (by decide) (by decide)⟩

/-- C4: for every oracle behavior (each network rejection, redirect
chain, browser interaction, and validation outcome the environment can
produce), `downloadFile` yields a plain value: `none`, or the destination
path.  Exceptions of the source are the `Except` failures of
`downloadFileDirect`/`fetchResponse` inside the model, and every such
failure is caught by the modeled `try`/`catch` structure. -/
theorem claim_C4 :
    ∀ (env : Env) (url dest : String) (iv : Bool) (fuel : Nat) (fs : FS),
      (downloadFile env url dest iv fuel fs).1 = none ∨
        (downloadFile env url dest iv fuel fs).1 = some dest := by
  intro env url dest iv fuel fs
  rcases downloadFile_acceptSpec env url dest iv fuel fs with h | ⟨h, _⟩
  · exact Or.inl h
  · exact Or.inr h

end T2S
